import Mathlib

/-
Verification of the FastCGI responder in fastcgi-server.go against its
natural-language specification.

Shallow embedding conventions:
* Go byte streams and buffers are `List Nat` (each element a byte value).
* Go `uint8`/`uint16` arithmetic is `Nat` arithmetic with explicit `% 256`
  where a conversion to `byte` occurs; big-endian 16-bit assembly
  `uint16(hi)<<8 | uint16(lo)` is `hi * 256 + lo` (exact for byte inputs).
* Fallible Go functions return `Except GoErr _`.  A Go runtime panic
  (index out of range on a slice access) is modelled by the distinguished
  outcome `GoErr.indexOutOfRange`: unlike the other constructors it does
  not correspond to an `error` return value in the source but to a crash.
* The stateful `io.Reader` is explicit state passing: a reader is a
  `List Nat` of the bytes still available, and reading returns the
  remaining list alongside the result.
* The stateful `io.Writer` used by sendResponse/sendStream is modelled by
  returning the list of all bytes written to the transport, in order.
-/

deriving instance DecidableEq for Except

namespace FastCGI

/-- Error outcomes of the Go functions.  `indexOutOfRange` models a Go
runtime panic (out-of-bounds slice index), not an `error` return; the
other constructors model the `fmt.Errorf` returns of the source. -/
inductive GoErr where
  | shortRead
  | badVersion
  | unknownRecordType
  | reservedNonzero
  | unknownRole
  | shortCopy
  | indexOutOfRange
  deriving Repr, DecidableEq

/-- Go struct `Record` (fastcgi-server.go).  The Go field `Type` is named
`RecType` here because `Type` is a Lean keyword; all other field names
match the source.  Numeric fields are `Nat` standing for `uint8`/`uint16`
values. -/
structure Record where
  Version : Nat
  RecType : Nat
  RequestID : Nat
  ContentLength : Nat
  PaddingLength : Nat
  Reserved : Nat
  ContentData : List Nat
  PaddingData : List Nat
  deriving Repr, DecidableEq

/-- Go `getRecordType`: maps raw type bytes 1..10 to themselves and
everything else to 11 (`FCGIUnknownType`). -/
def getRecordType (t : Nat) : Nat :=
  if t = 1 then 1
  else if t = 2 then 2
  else if t = 3 then 3
  else if t = 4 then 4
  else if t = 5 then 5
  else if t = 6 then 6
  else if t = 7 then 7
  else if t = 8 then 8
  else if t = 9 then 9
  else if t = 10 then 10
  else 11

/-- Go `readFull`: read exactly `n` bytes from the stream.  A single
`Read` on the modelled stream yields everything available, so the call
succeeds iff `n` bytes remain; on a short read the available bytes have
been consumed and the error is returned. -/
def readFull (n : Nat) (s : List Nat) : Except GoErr (List Nat) × List Nat :=
  if n ≤ s.length then (.ok (s.take n), s.drop n) else (.error .shortRead, [])

/-- Go `readRecord`: parse the fixed 8-byte header (validating version,
type and the reserved byte), then read `contentLength` content bytes and
`paddingLength` padding bytes.  Returns the record and the rest of the
stream. -/
def readRecord (s : List Nat) : Except GoErr Record × List Nat :=
  match readFull 8 s with
  | (.error e, s1) => (.error e, s1)
  | (.ok header, s1) =>
    let version := header.getD 0 0
    if version ≠ 1 then (.error .badVersion, s1)
    else
      let recordType := getRecordType (header.getD 1 0)
      if recordType = 11 then (.error .unknownRecordType, s1)
      else
        let requestID := header.getD 2 0 * 256 + header.getD 3 0
        let contentLength := header.getD 4 0 * 256 + header.getD 5 0
        let paddingLength := header.getD 6 0
        let reserved := header.getD 7 0
        if reserved ≠ 0 then (.error .reservedNonzero, s1)
        else
          match readFull contentLength s1 with
          | (.error e, s2) => (.error e, s2)
          | (.ok content, s2) =>
            match readFull paddingLength s2 with
            | (.error e, s3) => (.error e, s3)
            | (.ok padding, s3) =>
              (.ok { Version := version, RecType := recordType,
                     RequestID := requestID, ContentLength := contentLength,
                     PaddingLength := paddingLength, Reserved := reserved,
                     ContentData := content, PaddingData := padding }, s3)

/-- Go `Record.serialize`: 8-byte header (version 1, type byte, big-endian
request id, big-endian length of `ContentData`, padding length 0,
reserved 0) followed by the content bytes.  `byte(x)` is `x % 256` and
`byte(x >> 8)` is `x / 256 % 256`. -/
def Record.serialize (r : Record) : List Nat :=
  [1, r.RecType % 256,
   r.RequestID / 256 % 256, r.RequestID % 256,
   r.ContentData.length / 256 % 256, r.ContentData.length % 256,
   0, 0] ++ r.ContentData

/-- Encoding a record the way the source constructs one before calling
`serialize`: only `Type`, `RequestID` and `ContentData` are set, the
remaining fields keep their Go zero values. -/
def encodeRecord (t id : Nat) (c : List Nat) : List Nat :=
  Record.serialize { Version := 0, RecType := t, RequestID := id,
                     ContentLength := 0, PaddingLength := 0, Reserved := 0,
                     ContentData := c, PaddingData := [] }

/-- Go `getRole`: raw role values 1..3 map to themselves, everything else
to 4 (`FCGIUnknownRole`). -/
def getRole (r : Nat) : Nat :=
  if r = 1 then 1
  else if r = 2 then 2
  else if r = 3 then 3
  else 4

/-- Go struct `BeginRequest`. -/
structure BeginRequest where
  Role : Nat
  Flags : Nat
  deriving Repr, DecidableEq

/-- Go `parseBeginRequest`, on the record's content bytes.  The source
indexes `ContentData[0]`, `ContentData[1]` unconditionally (a Go panic,
i.e. `indexOutOfRange`, when the content is shorter), computes the role,
returns the unknown-role error before touching the flags byte, and only
then indexes `ContentData[2]`. -/
def parseBeginRequest (content : List Nat) : Except GoErr BeginRequest :=
  match content.get? 0, content.get? 1 with
  | some c0, some c1 =>
    let role := getRole (c0 * 256 + c1)
    if role = 4 then .error .unknownRole
    else
      match content.get? 2 with
      | some flags => .ok { Role := role, Flags := flags }
      | none => .error .indexOutOfRange
  | _, _ => .error .indexOutOfRange

/-- Go `readLength`, on the record's content bytes.  If the byte at `idx`
has its most significant bit clear it is the value and one byte is
consumed; otherwise the value is assembled big-endian from the low 7 bits
of that byte and the following three bytes.  Out-of-range accesses are
Go panics (`indexOutOfRange`); the source performs no bounds checks. -/
def readLength (content : List Nat) (idx : Nat) : Except GoErr (Nat × Nat) :=
  match content.get? idx with
  | none => .error .indexOutOfRange
  | some b =>
    if b >>> 7 = 0 then .ok (b, idx + 1)
    else
      match content.get? (idx + 1), content.get? (idx + 2), content.get? (idx + 3) with
      | some b1, some b2, some b3 =>
        .ok (b % 128 * 16777216 + b1 * 65536 + b2 * 256 + b3, idx + 4)
      | _, _, _ => .error .indexOutOfRange

theorem readLength_ok_lt {content : List Nat} {idx v j : Nat}
    (h : readLength content idx = .ok (v, j)) : idx < j := by
  unfold readLength at h
  split at h
  · simp at h
  · split at h
    · simp only [Except.ok.injEq, Prod.mk.injEq] at h
      omega
    · split at h
      · simp only [Except.ok.injEq, Prod.mk.injEq] at h
        omega
      · simp at h

/-- Loop body of Go `parseParams`, starting at position `idx` of the
content.  Each iteration reads a name length and a value length via
`readLength`, then slices `nameLength` name bytes and `valueLength` value
bytes out of the content.  A Go slice expression `content[i : i+n]` with
`i+n > len(content)` panics (`indexOutOfRange`); when it succeeds, the
subsequent `copy` short-count check of the source is kept (`shortCopy`),
although the slice then always has the declared length.  The collected
(name, value) pairs are returned. -/
def parseParamsAux (content : List Nat) (idx : Nat) :
    Except GoErr (List (List Nat × List Nat)) :=
  if h : idx < content.length then
    match h1 : readLength content idx with
    | .error e => .error e
    | .ok (nameLength, idx1) =>
      match h2 : readLength content idx1 with
      | .error e => .error e
      | .ok (valueLength, idx2) =>
        if idx2 + nameLength ≤ content.length then
          let name := (content.drop idx2).take nameLength
          if name.length ≠ nameLength then .error .shortCopy
          else
            if idx2 + nameLength + valueLength ≤ content.length then
              let value := (content.drop (idx2 + nameLength)).take valueLength
              if value.length ≠ valueLength then .error .shortCopy
              else
                match parseParamsAux content (idx2 + nameLength + valueLength) with
                | .error e => .error e
                | .ok rest => .ok ((name, value) :: rest)
            else .error .indexOutOfRange
        else .error .indexOutOfRange
  else .ok []
termination_by content.length - idx
decreasing_by
  have hlt1 := readLength_ok_lt h1
  have hlt2 := readLength_ok_lt h2
  omega

/-- Go `parseParams`, on the record's content bytes. -/
def parseParams (content : List Nat) : Except GoErr (List (List Nat × List Nat)) :=
  parseParamsAux content 0

example : parseParams [] = .ok [] := by simp [parseParams, parseParamsAux]
example : parseParams [3, 3, 102, 111, 111, 98, 97, 114]
    = .ok [([102, 111, 111], [98, 97, 114])] := by
  simp [parseParams, parseParamsAux, readLength, List.get?]
example : parseParams [128] = .error .indexOutOfRange := by simp [parseParams, parseParamsAux, readLength, List.get?]
example : parseParams [1] = .error .indexOutOfRange := by simp [parseParams, parseParamsAux, readLength, List.get?]
example : parseParams [3, 3, 102] = .error .indexOutOfRange := by simp [parseParams, parseParamsAux, readLength, List.get?]
example : parseBeginRequest [] = .error .indexOutOfRange := by decide
example : parseBeginRequest [0, 1] = .error .indexOutOfRange := by decide
example : parseBeginRequest [0, 4] = .error .unknownRole := by decide
example : parseBeginRequest [0, 1, 1, 0, 0, 0, 0, 0] = .ok ⟨1, 1⟩ := by decide
example : readLength [255, 255, 255, 255] 0 = .ok (2147483647, 4) := by decide

/-- The chunking loop of Go `sendStream`: consecutive slices
`payload[i : min (i+maxContentSize) len]` for `i = 0, m, 2m, ...`.
The Go loop diverges for `maxContentSize = 0` (the index never advances);
that case is excluded by the argument validation in `getArgs`
(`max content size must be [1, 65535]`), and every theorem about the
encoder assumes `1 ≤ maxContentSize`.  The fuel argument (instantiated
with `payload.length`, an upper bound on the number of iterations when
`1 ≤ maxContentSize`) only makes the recursion structural. -/
def sendStreamChunksAux : Nat → List Nat → Nat → List (List Nat)
  | _, [], _ => []
  | 0, _ :: _, _ => []
  | fuel + 1, a :: p, m => (a :: p).take m :: sendStreamChunksAux fuel ((a :: p).drop m) m

/-- The list of content chunks Go `sendStream` cuts the payload into. -/
def sendStreamChunks (payload : List Nat) (m : Nat) : List (List Nat) :=
  sendStreamChunksAux payload.length payload m

/-- The per-chunk loop of Go `sendStream`, over the list of content
chunks: each chunk is serialized as a Stdout (type 6) record, appended to
the accumulated buffer (first component) and, when `writeEachRecord` is
set, also written to the transport (second component: bytes written). -/
def sendStreamLoop (id : Nat) (w : Bool) : List (List Nat) → List Nat × List Nat
  | [] => ([], [])
  | chunk :: rest =>
    let recBytes := encodeRecord 6 id chunk
    let t := sendStreamLoop id w rest
    (recBytes ++ t.1, (if w then recBytes else []) ++ t.2)

/-- Go `sendStream`: the chunk records followed by the zero-length Stdout
end-of-stream record.  Returns (accumulated buffer, bytes written). -/
def sendStream (id : Nat) (payload : List Nat) (w : Bool) (m : Nat) :
    List Nat × List Nat :=
  let t := sendStreamLoop id w (sendStreamChunks payload m)
  let z := encodeRecord 6 id []
  (t.1 ++ z, t.2 ++ (if w then z else []))

/-- Go `sendResponse` with the payload abstracted (the source builds it
inline from `bodySize`; see `responsePayload`).  After the stream, the
EndRequest (type 3) record with an 8-byte all-zero body is appended to
the buffer; with `writeEachRecord` it is written on its own, otherwise
the whole buffer is written in one call.  Returns all bytes written. -/
def sendResponseCore (id : Nat) (payload : List Nat) (w : Bool) (m : Nat) :
    List Nat :=
  let s := sendStream id payload w m
  let endRec := encodeRecord 3 id (List.replicate 8 0)
  let buf := s.1 ++ endRec
  s.2 ++ (if w then endRec else []) ++ (if w then [] else buf)

/-- The fixed response headers of Go `sendResponse`
(Content-Type, Connection: close, blank line), as bytes. -/
def httpHeaders : List Nat :=
  ("Content-Type: text/plain\r\nConnection: close\r\n\r\n".data.map Char.toNat)

/-- The payload Go `sendResponse` builds: the fixed headers followed by
`bodySize` bytes of 0x61 ('a'). -/
def responsePayload (bodySize : Nat) : List Nat :=
  httpHeaders ++ List.replicate bodySize 97

/-- Go `sendResponse`: bytes written to the transport for one response. -/
def sendResponse (id bodySize : Nat) (w : Bool) (m : Nat) : List Nat :=
  sendResponseCore id (responsePayload bodySize) w m

/-- Go map `closeAfterRequest` (`map[uint16]bool`), as an association
list: `mapLookup` is Go map indexing (zero value `false` for an absent
key), `mapInsert` is assignment, `mapDelete` is `delete`. -/
def CloseMap : Type := List (Nat × Bool)

def mapLookup (mp : List (Nat × Bool)) (k : Nat) : Bool :=
  (mp.lookup k).getD false

def mapDelete (mp : List (Nat × Bool)) (k : Nat) : List (Nat × Bool) :=
  mp.filter (fun p => p.1 != k)

def mapInsert (mp : List (Nat × Bool)) (k : Nat) (v : Bool) : List (Nat × Bool) :=
  (k, v) :: mapDelete mp k

/-- Outcome of one iteration of the `handleConnection` read loop:
`next` means `continue` with the updated map and the bytes written during
the iteration, `stop` means `break` (the handler closes the connection),
`crash` means a Go runtime panic propagated out of a parse function. -/
inductive StepResult where
  | next (st : List (Nat × Bool)) (out : List Nat)
  | stop (out : List Nat)
  | crash (out : List Nat)
  deriving Repr, DecidableEq

/-- One iteration of the Go `handleConnection` loop on an already decoded
record.  The `requestId == 0` test of the source only selects a log
message and is therefore not part of the model; dispatch is on the type
alone, for every request id.  BeginRequest: parse, break on error, break
on a non-Responder role, otherwise store the close flag (bit 0) and
continue.  Params: parse, break on error, continue.  Stdin: send the
response, then break if the stored close flag is set, otherwise delete
the entry and continue.  Any other type: break. -/
def handleRecord (bodySize : Nat) (w : Bool) (m : Nat)
    (st : List (Nat × Bool)) (r : Record) : StepResult :=
  if r.RecType = 1 then
    match parseBeginRequest r.ContentData with
    | .error .indexOutOfRange => .crash []
    | .error _ => .stop []
    | .ok br =>
      if br.Role ≠ 1 then .stop []
      else .next (mapInsert st r.RequestID (br.Flags % 2 == 1)) []
  else if r.RecType = 4 then
    match parseParams r.ContentData with
    | .error .indexOutOfRange => .crash []
    | .error _ => .stop []
    | .ok _ => .next st []
  else if r.RecType = 5 then
    let out := sendResponse r.RequestID bodySize w m
    if mapLookup st r.RequestID then .stop out
    else .next (mapDelete st r.RequestID) out
  else .stop []

/-- Result of running the `handleConnection` loop over a trace of decoded
records: all bytes written, whether the loop was left by `break` (resp. a
panic) before the trace was exhausted, and the final close-flag map. -/
structure ConnResult where
  out : List Nat
  halted : Bool
  crashed : Bool
  finalSt : List (Nat × Bool)
  deriving Repr, DecidableEq

/-- The Go `handleConnection` read loop over a trace of decoded records
(the records `readRecord` would successively yield), threading the
`closeAfterRequest` map.  When the trace is exhausted the model stops
with `halted := false` (in the source the loop would block reading or
break on a read error; either way no further record is acted upon). -/
def runConn (bodySize : Nat) (w : Bool) (m : Nat) :
    List Record → List (Nat × Bool) → ConnResult
  | [], st => { out := [], halted := false, crashed := false, finalSt := st }
  | r :: rest, st =>
    match handleRecord bodySize w m st r with
    | .next st' out =>
      let t := runConn bodySize w m rest st'
      { out := out ++ t.out, halted := t.halted, crashed := t.crashed,
        finalSt := t.finalSt }
    | .stop out => { out := out, halted := true, crashed := false, finalSt := st }
    | .crash out => { out := out, halted := true, crashed := true, finalSt := st }

theorem getRecordType_eq {t : Nat} (h1 : 1 ≤ t) (h2 : t ≤ 10) :
    getRecordType t = t := by
  unfold getRecordType
  split_ifs <;> omega

theorem sendStreamChunksAux_join {m : Nat} (hm : 1 ≤ m) :
    ∀ fuel p, p.length ≤ fuel → (sendStreamChunksAux fuel p m).flatten = p := by
  intro fuel
  induction fuel with
  | zero =>
    intro p hp
    cases p with
    | nil => rfl
    | cons a p => simp at hp
  | succ fuel ih =>
    intro p hp
    cases p with
    | nil => rfl
    | cons a p =>
      have hdrop : ((a :: p).drop m).length ≤ fuel := by
        simp only [List.length_drop]
        simp only [List.length_cons] at hp ⊢
        omega
      simp only [sendStreamChunksAux, List.flatten_cons, ih _ hdrop]
      exact List.take_append_drop m (a :: p)

theorem sendStreamChunksAux_mem_le {m : Nat} :
    ∀ fuel p c, c ∈ sendStreamChunksAux fuel p m → c.length ≤ m := by
  intro fuel
  induction fuel with
  | zero =>
    intro p c hc
    cases p <;> simp [sendStreamChunksAux] at hc
  | succ fuel ih =>
    intro p c hc
    cases p with
    | nil => simp [sendStreamChunksAux] at hc
    | cons a p =>
      simp only [sendStreamChunksAux, List.mem_cons] at hc
      rcases hc with hc | hc
      · subst hc
        simpa using Nat.min_le_left m (a :: p).length
      · exact ih _ _ hc

theorem sendStreamChunks_join {p : List Nat} {m : Nat} (hm : 1 ≤ m) :
    (sendStreamChunks p m).flatten = p :=
  sendStreamChunksAux_join hm _ p le_rfl

theorem sendStreamChunks_mem_le {p c : List Nat} {m : Nat}
    (hc : c ∈ sendStreamChunks p m) : c.length ≤ m :=
  sendStreamChunksAux_mem_le _ _ _ hc

theorem sendStreamLoop_fst (id : Nat) (w : Bool) :
    ∀ cs, (sendStreamLoop id w cs).1 = (cs.map (encodeRecord 6 id)).flatten := by
  intro cs
  induction cs with
  | nil => rfl
  | cons c cs ih => simp [sendStreamLoop, ih]

theorem sendStreamLoop_snd (id : Nat) (w : Bool) :
    ∀ cs, (sendStreamLoop id w cs).2
      = if w then (sendStreamLoop id w cs).1 else [] := by
  intro cs
  induction cs with
  | nil => cases w <;> rfl
  | cons c cs ih => cases w <;> simp_all [sendStreamLoop]

/-- Both flush configurations of `sendResponseCore` write the chunk
records, the zero-length Stdout record and the EndRequest record, in that
order and nothing else. -/
theorem sendResponseCore_eq (id : Nat) (p : List Nat) (w : Bool) (m : Nat) :
    sendResponseCore id p w m
      = ((sendStreamChunks p m).map (encodeRecord 6 id)).flatten
        ++ encodeRecord 6 id [] ++ encodeRecord 3 id (List.replicate 8 0) := by
  have hfst := sendStreamLoop_fst id w (sendStreamChunks p m)
  have hsnd := sendStreamLoop_snd id w (sendStreamChunks p m)
  cases w <;>
    simp_all [sendResponseCore, sendStream]

theorem encodeRecord_ne_nil (t id : Nat) (c : List Nat) :
    encodeRecord t id c ≠ [] := by
  simp [encodeRecord, Record.serialize]

theorem mapLookup_mapInsert_self (st : List (Nat × Bool)) (k : Nat) (v : Bool) :
    mapLookup (mapInsert st k v) k = v := by
  simp [mapLookup, mapInsert, List.lookup]

theorem readFull_append {n : Nat} {l s : List Nat} (h : n = l.length) :
    readFull n (l ++ s) = (.ok l, s) := by
  subst h
  simp [readFull, List.take_left, List.drop_left]

theorem readFull_eq_ok {n : Nat} {s out rest : List Nat}
    (h : readFull n s = (.ok out, rest)) :
    n ≤ s.length ∧ out = s.take n ∧ rest = s.drop n := by
  unfold readFull at h
  split at h
  · simp only [Prod.mk.injEq, Except.ok.injEq] at h
    exact ⟨by assumption, h.1.symm, h.2.symm⟩
  · simp at h

theorem readFull_eq_error {n : Nat} {s rest : List Nat} {e : GoErr}
    (h : readFull n s = (.error e, rest)) : e = .shortRead ∧ rest = [] := by
  unfold readFull at h
  split at h
  · simp at h
  · simp only [Prod.mk.injEq, Except.error.injEq] at h
    exact ⟨h.1.symm, h.2.symm⟩

/-- C4: for every valid record type `t ∈ {1..10}`, request id below 65536
and content of at most 65535 bytes, decoding the bytes produced by
`encodeRecord` succeeds, consumes the whole stream and yields version 1,
type `t`, request id `id`, content length `len c`, padding length 0 and
content `c` (round-trip identity). -/
theorem readRecord_roundtrip (t id : Nat) (c : List Nat)
    (ht1 : 1 ≤ t) (ht2 : t ≤ 10) (hid : id < 65536) (hc : c.length ≤ 65535) :
    readRecord (encodeRecord t id c)
      = (.ok { Version := 1, RecType := t, RequestID := id,
               ContentLength := c.length, PaddingLength := 0, Reserved := 0,
               ContentData := c, PaddingData := [] }, ([] : List Nat)) := by
  have h256 : t % 256 = t := Nat.mod_eq_of_lt (by omega)
  have hser : encodeRecord t id c
      = [1, t % 256, id / 256 % 256, id % 256,
         c.length / 256 % 256, c.length % 256, 0, 0] ++ c := rfl
  unfold readRecord
  rw [hser, readFull_append (n := 8) (l := [1, t % 256, id / 256 % 256, id % 256,
       c.length / 256 % 256, c.length % 256, 0, 0]) (by rfl)]
  simp only [List.getD_cons_zero, List.getD_cons_succ, h256]
  rw [getRecordType_eq ht1 ht2]
  have hreq : id / 256 % 256 * 256 + id % 256 = id := by omega
  have hcl : c.length / 256 % 256 * 256 + c.length % 256 = c.length := by omega
  rw [hreq, hcl]
  have hne : ¬(1 ≠ 1) := by omega
  simp only [if_neg hne]
  rw [if_neg (show ¬ t = 11 by omega)]
  have hc1 : readFull c.length c = (.ok c, []) := by
    simp [readFull]
  rw [hc1]
  simp [readFull]

/-- Witness for `readRecord_roundtrip`: type 6 (Stdout), request id 1,
content [97, 98]. -/
theorem readRecord_roundtrip_witness :
    readRecord (encodeRecord 6 1 [97, 98])
      = (.ok { Version := 1, RecType := 6, RequestID := 1, ContentLength := 2,
               PaddingLength := 0, Reserved := 0, ContentData := [97, 98],
               PaddingData := [] }, ([] : List Nat)) :=
  readRecord_roundtrip 6 1 [97, 98] (by decide) (by decide) (by decide) (by decide)

/-- C2 (amended): when `readRecord` succeeds, the bytes consumed are
exactly 8 (header) + contentLength + paddingLength, in the order header,
content, padding; when a header-level semantic error (bad version,
unknown record type, nonzero reserved byte) is detected, exactly the 8
header bytes are consumed and the content and padding are NOT drained. -/
theorem readRecord_consumption (s : List Nat) :
    (∀ r s', readRecord s = (.ok r, s') →
       r.ContentData.length = r.ContentLength ∧
       r.PaddingData.length = r.PaddingLength ∧
       s = s.take 8 ++ r.ContentData ++ r.PaddingData ++ s' ∧
       s.length = 8 + r.ContentLength + r.PaddingLength + s'.length) ∧
    (∀ e s', readRecord s = (.error e, s') →
       (e = .badVersion ∨ e = .unknownRecordType ∨ e = .reservedNonzero) →
       s' = s.drop 8) := by
  constructor
  · intro r s' h
    unfold readRecord at h
    split at h
    · simp at h
    · rename_i header s1 heq
      obtain ⟨h8, hheader, hs1⟩ := readFull_eq_ok heq
      dsimp only at h
      split at h
      · simp at h
      · split at h
        · simp at h
        · split at h
          · simp at h
          · split at h
            · simp at h
            · rename_i content s2 heq2
              split at h
              · simp at h
              · rename_i padding s3 heq3
                obtain ⟨hcl, hcontent, hs2⟩ := readFull_eq_ok heq2
                obtain ⟨hpl, hpadding, hs3⟩ := readFull_eq_ok heq3
                simp only [Prod.mk.injEq, Except.ok.injEq] at h
                obtain ⟨hr, hs'⟩ := h
                subst hr hs' hs1 hs2 hs3 hcontent hpadding hheader
                dsimp only
                refine ⟨?_, ?_, ?_, ?_⟩
                · rw [List.length_take]
                  omega
                · rw [List.length_take]
                  omega
                · rw [List.append_assoc, List.append_assoc, List.take_append_drop,
                      List.take_append_drop, List.take_append_drop]
                · simp only [List.length_take, List.length_drop] at hcl hpl ⊢
                  omega
  · intro e s' h hmem
    unfold readRecord at h
    split at h
    · rename_i e0 s1 heq
      obtain ⟨he0, hs1⟩ := readFull_eq_error heq
      simp only [Prod.mk.injEq, Except.error.injEq] at h
      rcases hmem with h1 | h1 | h1 <;> simp_all
    · rename_i header s1 heq
      obtain ⟨h8, hheader, hs1⟩ := readFull_eq_ok heq
      dsimp only at h
      split at h
      · simp only [Prod.mk.injEq, Except.error.injEq] at h
        rw [← h.2]
        exact hs1
      · split at h
        · simp only [Prod.mk.injEq, Except.error.injEq] at h
          rw [← h.2]
          exact hs1
        · split at h
          · simp only [Prod.mk.injEq, Except.error.injEq] at h
            rw [← h.2]
            exact hs1
          · split at h
            · rename_i e2 s2 heq2
              obtain ⟨he2, hs2⟩ := readFull_eq_error heq2
              simp only [Prod.mk.injEq, Except.error.injEq] at h
              rcases hmem with h1 | h1 | h1 <;> simp_all
            · rename_i content s2 heq2
              split at h
              · rename_i e3 s3 heq3
                obtain ⟨he3, hs3⟩ := readFull_eq_error heq3
                simp only [Prod.mk.injEq, Except.error.injEq] at h
                rcases hmem with h1 | h1 | h1 <;> simp_all
              · simp at h

/-- Witness for `readRecord_consumption`: a successful record with
content length 2 and padding length 1. -/
theorem readRecord_consumption_witness :
    ([1, 6, 0, 1, 0, 2, 1, 0, 97, 98, 5] : List Nat)
      = [1, 6, 0, 1, 0, 2, 1, 0] ++ [97, 98] ++ [5] ++ [] ∧
    ([1, 6, 0, 1, 0, 2, 1, 0, 97, 98, 5] : List Nat).length = 8 + 2 + 1 + 0 := by
  have h := (readRecord_consumption [1, 6, 0, 1, 0, 2, 1, 0, 97, 98, 5]).1
    { Version := 1, RecType := 6, RequestID := 1, ContentLength := 2,
      PaddingLength := 1, Reserved := 0, ContentData := [97, 98],
      PaddingData := [5] }
    [] (by decide)
  exact ⟨by simpa using h.2.2.1, by simpa using h.2.2.2⟩

/-- C2 counterexample: a record whose header declares the unknown type 11
and content length 5.  `readRecord` stops after the 8 header bytes with
the unknown-record-type error and does NOT drain the 5 content bytes, so
the total consumed is 8, not 8 + contentLength + paddingLength = 13. -/
theorem readRecord_consumption_counterexample :
    readRecord [1, 11, 0, 0, 0, 5, 0, 0, 9, 9, 9, 9, 9]
      = (.error .unknownRecordType, [9, 9, 9, 9, 9]) ∧
    ([1, 11, 0, 0, 0, 5, 0, 0, 9, 9, 9, 9, 9] : List Nat).length
        - (readRecord [1, 11, 0, 0, 0, 5, 0, 0, 9, 9, 9, 9, 9]).2.length
      ≠ 8 + 5 + 0 := by
  decide

/-- C8: for a buffer with enough bytes at the offset, `readLength`
returns (byte, offset+1) when the most significant bit of the byte at the
offset is clear, and otherwise the big-endian assembly of the first
byte's low 7 bits with the following three bytes, consuming 4 bytes; in
particular 0x00 decodes to (0, +1), 0x7F to (127, +1), 80 00 00 01 to
(1, +4) and FF FF FF FF to (0x7FFFFFFF, +4). -/
theorem readLength_spec (content : List Nat) (i b : Nat)
    (hb : content.get? i = some b) (hb256 : b < 256) :
    (b < 128 → readLength content i = .ok (b, i + 1)) ∧
    (128 ≤ b → ∀ b1 b2 b3, content.get? (i + 1) = some b1 →
       content.get? (i + 2) = some b2 → content.get? (i + 3) = some b3 →
       readLength content i
         = .ok (b % 128 * 16777216 + b1 * 65536 + b2 * 256 + b3, i + 4)) ∧
    readLength [0] 0 = .ok (0, 0 + 1) ∧
    readLength [127] 0 = .ok (127, 0 + 1) ∧
    readLength [128, 0, 0, 1] 0 = .ok (1, 0 + 4) ∧
    readLength [255, 255, 255, 255] 0 = .ok (2147483647, 0 + 4) := by
  refine ⟨?_, ?_, by decide, by decide, by decide, by decide⟩
  · intro hlt
    have h7 : b >>> 7 = 0 := by
      rw [Nat.shiftRight_eq_div_pow]
      omega
    unfold readLength
    rw [hb]
    dsimp only
    rw [if_pos h7]
  · intro hge b1 b2 b3 h1 h2 h3
    have h7 : ¬ b >>> 7 = 0 := by
      rw [Nat.shiftRight_eq_div_pow]
      omega
    unfold readLength
    rw [hb]
    dsimp only
    rw [if_neg h7, h1, h2, h3]

/-- Witness for `readLength_spec`: single-byte length 6 at offset 1, and
a 4-byte length at offset 0. -/
theorem readLength_spec_witness :
    readLength [5, 6] 1 = .ok (6, 1 + 1) ∧
    readLength [128, 0, 0, 1] 0
      = .ok (128 % 128 * 16777216 + 0 * 65536 + 0 * 256 + 1, 0 + 4) :=
  ⟨(readLength_spec [5, 6] 1 6 rfl (by decide)).1 (by decide),
   (readLength_spec [128, 0, 0, 1] 0 128 rfl (by decide)).2.1 (by decide)
     0 0 1 rfl rfl rfl⟩

/-- C9 counterexample: content shorter than 3 bytes makes
`parseBeginRequest` hit a Go index-out-of-range runtime panic (modelled
by `GoErr.indexOutOfRange`), not a graceful decode-error return: with two
bytes declaring the Responder role it panics reading the flags byte, and
with no bytes it panics reading the role. -/
theorem parseBeginRequest_short_counterexample :
    parseBeginRequest [0, 1] = .error .indexOutOfRange ∧
    parseBeginRequest [] = .error .indexOutOfRange := by decide

/-- C9 (amended): with at least 3 content bytes, `parseBeginRequest`
reads the big-endian 16-bit role, fails with UnknownRole for role 0 or
at least 5 (any role outside 1..3), and for roles 1, 2, 3 returns that
role with the third content byte as flags, ignoring trailing bytes;
content shorter than 3 bytes however causes an index-out-of-range
runtime panic, not a decode-error return (see the counterexample). -/
theorem parseBeginRequest_spec (content : List Nat) (ro0 ro1 fl : Nat)
    (h0 : content.get? 0 = some ro0) (h1 : content.get? 1 = some ro1)
    (h2 : content.get? 2 = some fl) :
    (ro0 * 256 + ro1 = 0 ∨ 5 ≤ ro0 * 256 + ro1 →
       parseBeginRequest content = .error .unknownRole) ∧
    (ro0 * 256 + ro1 = 1 ∨ ro0 * 256 + ro1 = 2 ∨ ro0 * 256 + ro1 = 3 →
       parseBeginRequest content = .ok { Role := ro0 * 256 + ro1, Flags := fl }) := by
  constructor
  · intro hr
    have hrole : getRole (ro0 * 256 + ro1) = 4 := by
      unfold getRole
      split_ifs <;> omega
    unfold parseBeginRequest
    rw [h0, h1]
    dsimp only
    rw [if_pos hrole]
  · intro hr
    have hrole : getRole (ro0 * 256 + ro1) = ro0 * 256 + ro1 := by
      unfold getRole
      split_ifs <;> omega
    have hne : ¬ getRole (ro0 * 256 + ro1) = 4 := by
      rw [hrole]
      omega
    unfold parseBeginRequest
    rw [h0, h1]
    dsimp only
    rw [if_neg hne, h2, hrole]

/-- Witness for `parseBeginRequest_spec`: role bytes 00 01 (Responder),
flags 1, trailing reserved bytes ignored. -/
theorem parseBeginRequest_spec_witness :
    parseBeginRequest [0, 1, 1, 0, 0, 0, 0, 0] = .ok { Role := 1, Flags := 1 } := by
  simpa using (parseBeginRequest_spec [0, 1, 1, 0, 0, 0, 0, 0] 0 1 1
    rfl rfl rfl).2 (by omega)

/-- C3: the code, not the claim, is at fault.  `parseParams` is not
total with a `TruncatedParam`-style error on truncation: a declared
length that exceeds the remaining content makes the source index or
slice out of bounds, a Go runtime panic (`indexOutOfRange`), before its
own short-copy error check can ever fire.  [128] panics reading the
three extra length bytes, [1] panics reading the value length, and
[3, 3, 102] panics slicing 3 name bytes from 1 remaining byte.  An empty
content buffer does yield an empty pair sequence. -/
theorem parseParams_truncation_panics :
    parseParams [128] = .error .indexOutOfRange ∧
    parseParams [1] = .error .indexOutOfRange ∧
    parseParams [3, 3, 102] = .error .indexOutOfRange ∧
    parseParams [] = .ok [] := by
  refine ⟨?_, ?_, ?_, ?_⟩ <;>
    simp [parseParams, parseParamsAux, readLength, List.get?]

/-- C6: the two flush configurations of `sendResponse` (write each
record as produced, or accumulate everything and write once) send
exactly the same byte sequence to the transport. -/
theorem sendResponse_write_modes_agree (id bodySize m : Nat) (hm : 1 ≤ m) :
    sendResponse id bodySize true m = sendResponse id bodySize false m := by
  unfold sendResponse
  rw [sendResponseCore_eq, sendResponseCore_eq]

/-- Witness for `sendResponse_write_modes_agree` at id 1, body size 1,
max content size 4. -/
theorem sendResponse_write_modes_agree_witness :
    sendResponse 1 1 true 4 = sendResponse 1 1 false 4 :=
  sendResponse_write_modes_agree 1 1 4 (by decide)

/-- C5: every chunk the stream encoder emits has at most
`maxContentSize` bytes and the chunks concatenate to the payload; a
10-byte payload with limit 4 gives exactly the chunk lengths 4, 4, 2;
and the bytes sent for a response are exactly the Stdout chunk records,
then the zero-length Stdout terminator record, then the EndRequest
record with an 8-byte all-zero body. -/
theorem sendStream_chunking (id m : Nat) (p : List Nat) (w : Bool) (hm : 1 ≤ m) :
    (∀ c ∈ sendStreamChunks p m, c.length ≤ m) ∧
    (sendStreamChunks p m).flatten = p ∧
    (p.length = 10 → m = 4 →
       (sendStreamChunks p m).map List.length = [4, 4, 2]) ∧
    sendResponseCore id p w m
      = ((sendStreamChunks p m).map (encodeRecord 6 id)).flatten
        ++ encodeRecord 6 id [] ++ encodeRecord 3 id (List.replicate 8 0) := by
  refine ⟨fun c hc => sendStreamChunks_mem_le hc, sendStreamChunks_join hm,
    ?_, sendResponseCore_eq id p w m⟩
  intro hp hm4
  subst hm4
  rcases p with _ | ⟨a0, _ | ⟨a1, _ | ⟨a2, _ | ⟨a3, _ | ⟨a4, _ | ⟨a5, _ |
    ⟨a6, _ | ⟨a7, _ | ⟨a8, _ | ⟨a9, _ | ⟨a10, p⟩⟩⟩⟩⟩⟩⟩⟩⟩⟩⟩ <;>
    first
    | rfl
    | simp_all

/-- Witness for `sendStream_chunking`: 10-byte payload, limit 4. -/
theorem sendStream_chunking_witness :
    (sendStreamChunks (List.replicate 10 7) 4).map List.length = [4, 4, 2] :=
  ((sendStream_chunking 0 4 (List.replicate 10 7) true (by decide)).2.2.1)
    (by decide) rfl

example : sendStreamChunks [0, 1, 2, 3, 4, 5, 6, 7, 8, 9] 4
    = [[0, 1, 2, 3], [4, 5, 6, 7], [8, 9]] := by decide
example : httpHeaders.length = 47 := by decide
example : sendResponse 1 2 true 65535
    = [1, 6, 0, 1, 0, 49, 0, 0] ++ httpHeaders ++ [97, 97]
      ++ [1, 6, 0, 1, 0, 0, 0, 0]
      ++ [1, 3, 0, 1, 0, 8, 0, 0, 0, 0, 0, 0, 0, 0, 0, 0] := by decide
example : sendResponse 1 2 true 65535 = sendResponse 1 2 false 65535 := by decide
example : encodeRecord 6 1 [97, 98] = [1, 6, 0, 1, 0, 2, 0, 0, 97, 98] := by decide
example : readRecord [1, 6, 0, 1, 0, 2, 0, 0, 97, 98]
    = (.ok { Version := 1, RecType := 6, RequestID := 1, ContentLength := 2,
             PaddingLength := 0, Reserved := 0, ContentData := [97, 98],
             PaddingData := [] }, []) := by decide
example : readRecord [1, 11, 0, 0, 0, 5, 0, 0, 9, 9, 9, 9, 9]
    = (.error .unknownRecordType, [9, 9, 9, 9, 9]) := by decide

theorem handleRecord_params {bodySize : Nat} {w : Bool} {m : Nat}
    {st : List (Nat × Bool)} {r : Record} (ht : r.RecType = 4)
    {ps : List (List Nat × List Nat)}
    (hp : parseParams r.ContentData = .ok ps) :
    handleRecord bodySize w m st r = .next st [] := by
  unfold handleRecord
  rw [ht, hp]
  rfl

theorem runConn_params_skip (bodySize : Nat) (w : Bool) (m : Nat)
    (mid : List Record)
    (hmid : ∀ r ∈ mid, r.RecType = 4 ∧ ∃ ps, parseParams r.ContentData = .ok ps) :
    ∀ (tail : List Record) (st : List (Nat × Bool)),
      runConn bodySize w m (mid ++ tail) st = runConn bodySize w m tail st := by
  induction mid with
  | nil => intro tail st; rfl
  | cons r mid ih =>
    intro tail st
    obtain ⟨ht, ps, hp⟩ := hmid r (by simp)
    have hstep := @handleRecord_params bodySize w m st r ht ps hp
    simp only [List.cons_append, runConn, hstep, List.append_eq]
    rw [ih (fun r hr => hmid r (by simp [hr])) tail st]
    rfl


/-- C7: in a trace consisting of a BeginRequest record for some id with
Responder role bytes and a flags byte, then any well-formed Params
records, then a Stdin record for that id, the handler sends the response
and — when bit 0 of flags is set — breaks out of the read loop at once:
the records after the Stdin record are never processed and the
connection closes.  When bit 0 is clear, the handler deletes the entry
and keeps reading: processing continues into the rest of the trace with
the entry for that id removed, so a later BeginRequest with the same or
a new id finds the connection open. -/
theorem close_semantics (bodySize m : Nat) (w : Bool) (id flags : Nat)
    (rb rs : Record) (extra : List Nat) (mid post : List Record)
    (st : List (Nat × Bool))
    (hrb : rb.RecType = 1 ∧ rb.RequestID = id ∧
      rb.ContentData = 0 :: 1 :: flags :: extra)
    (hrs : rs.RecType = 5 ∧ rs.RequestID = id)
    (hmid : ∀ r ∈ mid, r.RecType = 4 ∧ ∃ ps, parseParams r.ContentData = .ok ps) :
    (flags % 2 = 1 →
       runConn bodySize w m (rb :: mid ++ rs :: post) st
         = { out := sendResponse id bodySize w m, halted := true,
             crashed := false, finalSt := mapInsert st id true }) ∧
    (flags % 2 = 0 →
       runConn bodySize w m (rb :: mid ++ rs :: post) st
         = { out := sendResponse id bodySize w m
               ++ (runConn bodySize w m post (mapDelete st id)).out,
             halted := (runConn bodySize w m post (mapDelete st id)).halted,
             crashed := (runConn bodySize w m post (mapDelete st id)).crashed,
             finalSt := (runConn bodySize w m post (mapDelete st id)).finalSt }) := by
  have hbegin : ∀ st', handleRecord bodySize w m st' rb
      = .next (mapInsert st' id (flags % 2 == 1)) [] := by
    intro st'
    unfold handleRecord
    rw [hrb.1, hrb.2.2, hrb.2.1]
    rfl
  have hstdin : ∀ st', handleRecord bodySize w m st' rs
      = if mapLookup st' id then .stop (sendResponse id bodySize w m)
        else .next (mapDelete st' id) (sendResponse id bodySize w m) := by
    intro st'
    unfold handleRecord
    rw [hrs.1, hrs.2]
    rfl
  have hdel : mapDelete (mapInsert st id false) id = mapDelete st id := by
    unfold mapInsert mapDelete
    simp only [List.filter_cons]
    simp [List.filter_filter]
  constructor
  · intro hflag
    have hb : (flags % 2 == 1) = true := by simp [hflag]
    simp only [List.cons_append, runConn, hbegin st, hb, List.append_eq]
    rw [runConn_params_skip bodySize w m mid hmid (rs :: post) (mapInsert st id true)]
    simp only [runConn, hstdin (mapInsert st id true), mapLookup_mapInsert_self]
    rfl
  · intro hflag
    have hb : (flags % 2 == 1) = false := by simp [hflag]
    simp only [List.cons_append, runConn, hbegin st, hb, List.append_eq]
    rw [runConn_params_skip bodySize w m mid hmid (rs :: post) (mapInsert st id false)]
    simp only [runConn, hstdin (mapInsert st id false), mapLookup_mapInsert_self]
    simp only [if_neg (by simp : ¬ (false = true))]
    rw [hdel]
    rfl


/-- C10 (implicit): a Stdin record for a nonzero request id with no
entry in the close-flag table still triggers a complete response for
that id (the Stdout chunk records, then the zero-length Stdout
terminator, then the EndRequest record), the missing entry is read as
false (do not close), and the handler continues with the rest of the
trace — BeginRequest is never required to precede Stdin. -/
theorem stdin_without_entry (bodySize m : Nat) (w : Bool) (id : Nat)
    (rs : Record) (rest : List Record) (st : List (Nat × Bool))
    (hrs : rs.RecType = 5 ∧ rs.RequestID = id) (hid : id ≠ 0)
    (hst : st.lookup id = none) (hm : 1 ≤ m) :
    runConn bodySize w m (rs :: rest) st
      = { out := sendResponse id bodySize w m
            ++ (runConn bodySize w m rest (mapDelete st id)).out,
          halted := (runConn bodySize w m rest (mapDelete st id)).halted,
          crashed := (runConn bodySize w m rest (mapDelete st id)).crashed,
          finalSt := (runConn bodySize w m rest (mapDelete st id)).finalSt } ∧
    sendResponse id bodySize w m
      = ((sendStreamChunks (responsePayload bodySize) m).map
          (encodeRecord 6 id)).flatten
        ++ encodeRecord 6 id [] ++ encodeRecord 3 id (List.replicate 8 0) := by
  have hstdin : handleRecord bodySize w m st rs
      = if mapLookup st id then .stop (sendResponse id bodySize w m)
        else .next (mapDelete st id) (sendResponse id bodySize w m) := by
    unfold handleRecord
    rw [hrs.1, hrs.2]
    rfl
  have hlk : mapLookup st id = false := by
    simp [mapLookup, hst]
  constructor
  · simp only [runConn, hstdin, hlk]
    rfl
  · exact sendResponseCore_eq id (responsePayload bodySize) w m

/-- C1 counterexample: records with requestId 0 ARE acted upon.  A
Stdin record with requestId 0 makes the handler emit response bytes, and
a BeginRequest record with requestId 0 changes the request state table
— contradicting the claim that no state transition happens and no
response bytes are emitted for requestId 0. -/
theorem management_records_counterexample :
    (runConn 1 true 4 [⟨1, 5, 0, 0, 0, 0, [], []⟩] []).out ≠ [] ∧
    (runConn 1 true 4 [⟨1, 1, 0, 3, 0, 0, [0, 1, 1], []⟩] []).finalSt ≠ [] := by
  decide

/-- C1 (amended): a record with requestId 0 only gets a different log
message; it is then dispatched on its type exactly like an application
record: a BeginRequest with requestId 0 (Responder role) creates a state
table entry under key 0 and the handler continues; a well-formed Params
record with requestId 0 is parsed and the handler continues; a Stdin
record with requestId 0 emits a full (nonempty) response for id 0 and
consults the close flag for key 0; and a record of a type the dispatch
does not handle (outside BeginRequest/Params/Stdin, e.g. GetValues,
type 9) breaks the read loop. -/
theorem management_records_are_processed (bodySize m flags : Nat) (w : Bool)
    (st : List (Nat × Bool)) (hm : 1 ≤ m) :
    runConn bodySize w m [⟨1, 1, 0, 3, 0, 0, [0, 1, flags], []⟩] st
      = { out := [], halted := false, crashed := false,
          finalSt := mapInsert st 0 (flags % 2 == 1) } ∧
    runConn bodySize w m [⟨1, 4, 0, 0, 0, 0, [], []⟩] st
      = { out := [], halted := false, crashed := false, finalSt := st } ∧
    runConn bodySize w m [⟨1, 5, 0, 0, 0, 0, [], []⟩] st
      = (if mapLookup st 0 then
           { out := sendResponse 0 bodySize w m, halted := true,
             crashed := false, finalSt := st }
         else
           { out := sendResponse 0 bodySize w m, halted := false,
             crashed := false, finalSt := mapDelete st 0 }) ∧
    sendResponse 0 bodySize w m ≠ [] ∧
    runConn bodySize w m [⟨1, 9, 0, 0, 0, 0, [], []⟩] st
      = { out := [], halted := true, crashed := false, finalSt := st } := by
  refine ⟨rfl, ?_, ?_, ?_, rfl⟩
  · have hp : parseParams ([] : List Nat) = .ok [] := by
      simp [parseParams, parseParamsAux]
    have hstep := @handleRecord_params bodySize w m st
      ⟨1, 4, 0, 0, 0, 0, [], []⟩ rfl [] hp
    simp only [runConn, hstep]
    rfl
  · cases hc : mapLookup st 0 <;>
      simp [runConn, handleRecord, hc]
  · intro hn
    unfold sendResponse at hn
    rw [sendResponseCore_eq] at hn
    simp [encodeRecord, Record.serialize] at hn


/-- Witness for `close_semantics`: begin (flags bit0 set) then stdin for
id 1; the connection halts right after the response. -/
theorem close_semantics_witness :
    runConn 1 true 65535 [⟨1, 1, 1, 3, 0, 0, [0, 1, 1], []⟩,
      ⟨1, 5, 1, 0, 0, 0, [], []⟩] []
      = { out := sendResponse 1 1 true 65535, halted := true,
          crashed := false, finalSt := mapInsert [] 1 true } :=
  (close_semantics 1 65535 true 1 1 ⟨1, 1, 1, 3, 0, 0, [0, 1, 1], []⟩
    ⟨1, 5, 1, 0, 0, 0, [], []⟩ [] [] [] []
    ⟨rfl, rfl, rfl⟩ ⟨rfl, rfl⟩ (fun r hr => absurd hr (List.not_mem_nil r))).1 rfl

/-- Witness for `stdin_without_entry`: stdin for id 7 on an empty table. -/
theorem stdin_without_entry_witness :
    runConn 1 true 65535 [⟨1, 5, 7, 0, 0, 0, [], []⟩] []
      = { out := sendResponse 7 1 true 65535
            ++ (runConn 1 true 65535 [] (mapDelete [] 7)).out,
          halted := (runConn 1 true 65535 [] (mapDelete [] 7)).halted,
          crashed := (runConn 1 true 65535 [] (mapDelete [] 7)).crashed,
          finalSt := (runConn 1 true 65535 [] (mapDelete [] 7)).finalSt } :=
  (stdin_without_entry 1 65535 true 7 ⟨1, 5, 7, 0, 0, 0, [], []⟩ [] []
    ⟨rfl, rfl⟩ (by decide) rfl (by decide)).1

/-- Witness for `management_records_are_processed`: BeginRequest with
requestId 0 and flags 1 creates the entry (0, true). -/
theorem management_records_are_processed_witness :
    runConn 1 true 4 [⟨1, 1, 0, 3, 0, 0, [0, 1, 1], []⟩] []
      = { out := [], halted := false, crashed := false,
          finalSt := mapInsert [] 0 (1 % 2 == 1) } :=
  (management_records_are_processed 1 4 1 true [] (by decide)).1

end FastCGI
